import Mathlib

/-!
Shallow embedding of `src/cmd/gen.py` (the `subcut gen` subcommand):
the timestamp formatter, the character-escaping routine, the subtitle
serialization loop, and the device-probe orchestration in
`gen_sub_command`.  Python floats are modelled as rationals, Python
strings as `String`, and the fallible external probes as explicit
inputs.
-/

/-- One character of Python's per-character `match` in
`char_parsing_correct_format` (`gen.py` lines 22-39): the escaped
replacement for a character, as a character list.  The default arm
keeps the character unchanged. -/
def escapeChar (c : Char) : List Char :=
  if c = '&' then "&amp;".data
  else if c = '<' then "&lt;".data
  else if c = '>' then "&gt;".data
  else if c = Char.ofNat 34 then "&quot;".data  -- the double-quote character
  else if c = Char.ofNat 39 then "&apos;".data  -- the apostrophe character
  else if c = '–' then "&ndash;".data
  else if c = '—' then "&mdash;".data
  else if c = '©' then "&copy;".data
  else if c = '®' then "&reg;".data
  else if c = '™' then "&trade;".data
  else if c = '≈' then "&asymp;".data
  else if c = '£' then "&pound;".data
  else if c = '€' then "&euro;".data
  else if c = '°' then "&deg;".data
  else [c]

/-- Python `str.split(sep)` for a one-character separator: splits at every
occurrence of `sep`, keeping empty pieces (so consecutive separators
produce empty words, as in `"a   b".split(" ") = ["a","","","b"]`). -/
def splitChar (sep : Char) : List Char → List (List Char)
  | [] => [[]]
  | c :: cs =>
    match splitChar sep cs with
    | [] => [[]]
    | w :: ws => if c = sep then [] :: w :: ws else (c :: w) :: ws

/-- Python `" ".join(words)`: words joined with a single space. -/
def joinWords : List (List Char) → List Char
  | [] => []
  | [w] => w
  | w :: ws => w ++ ' ' :: joinWords ws

/-- `char_parsing_correct_format` (`gen.py` lines 17-43): split the text on
single spaces, replace each character of each word by its entity
replacement (one pass over the original characters), and rejoin the words
with single spaces. -/
def char_parsing_correct_format (text : String) : String :=
  let words := splitChar ' ' text.data
  let new_words := words.map (fun word => (word.map escapeChar).flatten)
  String.mk (joinWords new_words)

/-- Python `str.zfill`-style padding used by the `:0Nd` format specifier:
left-pad a digit string with zeros up to the requested width. -/
def zfill (w : Nat) (s : String) : String :=
  String.mk (List.replicate (w - s.length) '0') ++ s

/-- Python's `f"{n:0Nd}"` on an integer: zero-padded decimal rendering,
with the sign counting toward the width. -/
def pyPad (w : Nat) (n : Int) : String :=
  if n < 0 then "-" ++ zfill (w - 1) (Nat.repr n.natAbs)
  else zfill w (Nat.repr n.natAbs)

/-- `format_srt_timestamp` (`gen.py` lines 11-15), with the Python float
modelled as a rational.  `divmod(seconds, 3600)` floor-divides, so
`h = ⌊seconds/3600⌋` and the remainder is `seconds - 3600*h`; likewise for
minutes.  `s % 1` is the (always nonnegative) fractional part and
`int(...)` truncates it after scaling by 1000. -/
def format_srt_timestamp (seconds : ℚ) : String :=
  let h : ℤ := ⌊seconds / 3600⌋
  let remainder : ℚ := seconds - 3600 * h
  let m : ℤ := ⌊remainder / 60⌋
  let s : ℚ := remainder - 60 * m
  let ms : ℤ := ⌊(s - ⌊s⌋) * 1000⌋
  pyPad 2 h ++ ":" ++ pyPad 2 m ++ ":" ++ pyPad 2 ⌊s⌋ ++ "." ++ pyPad 3 ms

/-- A transcription segment as consumed by the serialization loop
(`segment.start`, `segment.end`, `segment.text`), the Python floats
modelled as rationals.  The field `stop` stands for the source attribute
`end`, which is a reserved word here. -/
structure Segment where
  start : ℚ
  stop : ℚ
  text : String
deriving DecidableEq

/-- Python `text.removeprefix(" ")` as used on the escaped segment text:
drop exactly one leading space when present. -/
def strip_one_leading_space (s : String) : String :=
  match s.data with
  | c :: rest => if c = ' ' then String.mk rest else s
  | [] => s

/-- One cue block as written by the body of the loop in `gen_sub_command`
(`gen.py` lines 110-120), without its trailing block break:
`f"{index}\n{start_time} --> {end_time}\n{formatted_text.removeprefix(' ')}"`. -/
def renderCue (index : Nat) (seg : Segment) : String :=
  Nat.repr index ++ "\n" ++ format_srt_timestamp seg.start ++ " --> " ++
    format_srt_timestamp seg.stop ++ "\n" ++
    strip_one_leading_space (char_parsing_correct_format seg.text)

/-- The serialization loop: `i` is the value of `index` before the
iteration (the loop increments it first), `total` is
`len(segments_list)`.  The block break is `"\n\n"` except when the
incremented index equals `total - 1`, where it is `""`. -/
def serializeAux (total : Nat) : Nat → List Segment → String
  | _, [] => ""
  | i, seg :: rest =>
    renderCue (i + 1) seg ++ (if i + 1 = total - 1 then "" else "\n\n") ++
      serializeAux total (i + 1) rest

/-- Everything the loop in `gen_sub_command` writes after the header. -/
def serializeBody (segs : List Segment) : String :=
  serializeAux segs.length 0 segs

/-- The successive values taken by the loop variable `index`, starting
from the value `i` it has before the remaining iterations. -/
def cueIndicesAux : Nat → List Segment → List Nat
  | _, [] => []
  | i, _ :: rest => (i + 1) :: cueIndicesAux (i + 1) rest

/-- The cue indices the loop writes, in order. -/
def cueIndices (segs : List Segment) : List Nat :=
  cueIndicesAux 0 segs

/-- The rendered cue blocks (without block breaks), with indices starting
from `i + 1`. -/
def cueBlocksAux : Nat → List Segment → List String
  | _, [] => []
  | i, seg :: rest => renderCue (i + 1) seg :: cueBlocksAux (i + 1) rest

/-- The rendered cue blocks of a segment list, indices starting at 1. -/
def cueBlocks (segs : List Segment) : List String :=
  cueBlocksAux 0 segs

/-- Blocks joined so that consecutive blocks are separated by exactly one
blank line (each block ends without a newline, so `"\n\n"` between two
blocks is one line break plus one empty line). -/
def sepByBlankLine : List String → String
  | [] => ""
  | [b] => b
  | b :: bs => b ++ "\n\n" ++ sepByBlankLine bs

/-- Concatenation of a list of strings, in order. -/
def strConcat : List String → String
  | [] => ""
  | s :: ss => s ++ strConcat ss

/-- The fixed content written by `static_content` (`gen.py` lines 46-53):
the WEBVTT format marker and the NOTE disclaimer, written before any cue. -/
def vtt_header : String :=
  "WEBVTT\n\nNOTE\nThis is created by subcut, you can modify as you want, but respect the structure\nFor more ref, use: https://developer.mozilla.org/en-US/docs/Web/API/WebVTT_API/Web_Video_Text_Tracks_Format#cue_payload_text_tags\n\n"

/-- Modelled from the spec: the results of the three device probes of the
`cuda_check` module, whose source is not among the provided files.  The
spec describes each probe as tri-state (affirms availability, affirms
unavailability, or inconclusive), and the third one as additionally
returning a diagnostic message, matching the call
`cuda_available, error = cuda_check.has_cudart_dll()`; an inconclusive
probe is `none` and the empty string is the absent diagnostic. -/
structure ProbeResults where
  check_cuda_available : Option Bool
  nvidia_msi_check : Option Bool
  has_cudart_dll : Option Bool × String
deriving DecidableEq

/-- The probe cascade of `gen_sub_command` (`gen.py` lines 79-86):
`error` starts empty, each later probe runs only when `cuda_available` is
still `None`, and the third probe rebinds both `cuda_available` and
`error`. -/
def probe_cascade (p : ProbeResults) : Option Bool × String :=
  let cuda_available := p.check_cuda_available
  let cuda_available :=
    if cuda_available = none then p.nvidia_msi_check else cuda_available
  if cuda_available = none then p.has_cudart_dll else (cuda_available, "")

/-- The CLI arguments of the `gen` subcommand, after argparse fills the
defaults (`model = "base"`, `language = "en"`, `device = "cuda"`). -/
structure Args where
  audio_file : String
  model : String
  language : String
  output_file : String
  device : String
deriving DecidableEq

/-- The observable effect of the fatal-error branch: the printed error
line and the status passed to `os._exit`. -/
structure Abort where
  printed : String
  code : Nat
deriving DecidableEq

/-- The observable effects of a completed run: the model name and device
string passed to `WhisperModel`, the full content written to the output
file, and the final success line. -/
structure GenResult where
  model : String
  device : String
  fileContent : String
  printed : String
deriving DecidableEq

/-- Python `str.lower()`, per character. -/
def pyLower (s : String) : String :=
  String.mk (s.data.map Char.toLower)

/-- Python `str.strip()`: drop whitespace from both ends. -/
def pyStrip (s : String) : String :=
  String.mk (((s.data.dropWhile Char.isWhitespace).reverse.dropWhile
    Char.isWhitespace).reverse)

/-- The success line `print(f"DONE: file generated at path ...")`. -/
def doneMessage (output_file : String) : String :=
  "\x1b[1;32mDONE:\x1b[0m file generated at path " ++ output_file

/-- The whole observable behaviour of `gen_sub_command` (`gen.py` lines
88-122) after argument parsing, as a function of the probe results, the
CLI arguments, the raw interactive answer `choice` (read only at the
downgrade prompt), the two high-end model denylists from the `defautls`
module (not among the provided files), and the materialized segment
list.  Faithful points of the source: the first branch requires a truthy
`cuda_available` and an empty `error` and forces the device to
`"cuda"`; a non-empty `error` prints it and calls `os._exit(1)` before
any model load or file write; the CPU branch assigns `args.device`
(not `args_config["device"]`, which is what the model is built from) so
the configured device keeps its CLI value; the prompt answer is
stripped and lowercased, and the model is replaced by `"base"` exactly
when that answer equals `"n"`.  The output file receives the header
followed by the serialized body. -/
def gen_run (HIGH_END_DEVICES_EN HIGH_END_DEVICES : List String)
    (p : ProbeResults) (args : Args) (choice : String)
    (segments : List Segment) : Except Abort GenResult :=
  let res := probe_cascade p
  let cuda_available := res.1
  let error := res.2
  if cuda_available = some true ∧ error = "" then
    .ok { model := args.model, device := "cuda",
          fileContent := vtt_header ++ serializeBody segments,
          printed := doneMessage args.output_file }
  else if error ≠ "" then
    .error { printed := "\x1b[1;31mERROR:\x1b[0m " ++ error, code := 1 }
  else
    let model :=
      if 0 < HIGH_END_DEVICES_EN.count args.model ∨
          0 < HIGH_END_DEVICES.count args.model then
        if pyLower (pyStrip choice) = "n" then "base" else args.model
      else args.model
    .ok { model := model, device := args.device,
          fileContent := vtt_header ++ serializeBody segments,
          printed := doneMessage args.output_file }


/-! ## Helper lemmas -/

theorem splitChar_ne_nil (sep : Char) (l : List Char) : splitChar sep l ≠ [] := by
  cases l with
  | nil => simp [splitChar]
  | cons c cs =>
    simp only [splitChar]
    split
    · simp
    · split <;> simp

theorem joinWords_cons_cons (w v : List Char) (ws : List (List Char)) :
    joinWords (w :: v :: ws) = w ++ ' ' :: joinWords (v :: ws) := rfl

theorem joinWords_cons_head (c : Char) (w : List Char) (ws : List (List Char)) :
    joinWords ((c :: w) :: ws) = c :: joinWords (w :: ws) := by
  cases ws with
  | nil => rfl
  | cons v vs => simp [joinWords_cons_cons]

theorem joinWords_splitChar : ∀ l : List Char, joinWords (splitChar ' ' l) = l := by
  intro l
  induction l with
  | nil => rfl
  | cons c cs ih =>
    cases h : splitChar ' ' cs with
    | nil => exact absurd h (splitChar_ne_nil _ _)
    | cons w ws =>
      rw [h] at ih
      simp only [splitChar, h]
      by_cases hc : c = ' '
      · rw [if_pos hc, joinWords_cons_cons, ih, hc]
        rfl
      · rw [if_neg hc, joinWords_cons_head, ih]

theorem mem_of_mem_splitChar (sep : Char) :
    ∀ (l w : List Char), w ∈ splitChar sep l → ∀ c ∈ w, c ∈ l := by
  intro l
  induction l with
  | nil =>
    intro w hw c hc
    simp [splitChar] at hw
    subst hw
    simp at hc
  | cons x xs ih =>
    intro w hw c hc
    cases h : splitChar sep xs with
    | nil => exact absurd h (splitChar_ne_nil _ _)
    | cons w0 ws =>
      simp only [splitChar, h] at hw
      by_cases hx : x = sep
      · rw [if_pos hx] at hw
        rcases List.mem_cons.mp hw with h1 | h1
        · subst h1; simp at hc
        · exact List.mem_cons_of_mem x (ih w (h ▸ h1) c hc)
      · rw [if_neg hx] at hw
        rcases List.mem_cons.mp hw with h1 | h1
        · subst h1
          rcases List.mem_cons.mp hc with h2 | h2
          · subst h2; exact List.mem_cons_self _ _
          · have hmem : w0 ∈ splitChar sep xs := by
              rw [h]; exact List.mem_cons_self _ _
            exact List.mem_cons_of_mem x (ih w0 hmem c h2)
        · have hmem : w ∈ splitChar sep xs := by
            rw [h]; exact List.mem_cons_of_mem _ h1
          exact List.mem_cons_of_mem x (ih w hmem c hc)

theorem flatten_map_singleton {α : Type} (l : List α) :
    (l.map (fun a => [a])).flatten = l := by
  induction l with
  | nil => rfl
  | cons a as ih => simp [ih]

theorem cueBlocksAux_ne_nil (i : Nat) (l : List Segment) (a : Segment) :
    cueBlocksAux i (l ++ [a]) ≠ [] := by
  cases l <;> simp [cueBlocksAux]

theorem sepByBlankLine_cons (b : String) (bs : List String) (h : bs ≠ []) :
    sepByBlankLine (b :: bs) = b ++ "\n\n" ++ sepByBlankLine bs := by
  cases bs with
  | nil => exact absurd rfl h
  | cons x xs => rfl

theorem serializeAux_split (a b : Segment) :
    ∀ (front : List Segment) (i total : Nat), total = i + front.length + 2 →
      serializeAux total i (front ++ [a, b]) =
        sepByBlankLine (cueBlocksAux i (front ++ [a])) ++
          renderCue total b ++ "\n\n" := by
  intro front
  induction front with
  | nil =>
    intro i total ht
    have ht2 : total = i + 2 := by simpa using ht
    have h1 : i + 1 = total - 1 := by omega
    have h2 : ¬ (i + 1 + 1 = total - 1) := by omega
    have h3 : i + 1 + 1 = total := by omega
    simp only [List.nil_append, serializeAux, cueBlocksAux]
    rw [if_pos h1, if_neg h2, h3]
    simp [sepByBlankLine, String.append_assoc, String.append_empty,
      String.empty_append]
  | cons x f ih =>
    intro i total ht
    have ht2 : total = i + f.length + 3 := by simpa using ht
    have hcond : ¬ (i + 1 = total - 1) := by omega
    simp only [List.cons_append, serializeAux, cueBlocksAux, List.append_eq]
    rw [if_neg hcond, ih (i + 1) total (by omega)]
    rw [sepByBlankLine_cons _ _ (cueBlocksAux_ne_nil _ _ _)]
    simp [String.append_assoc]

theorem cueIndicesAux_eq (l : List Segment) :
    ∀ i, cueIndicesAux i l = List.range' (i + 1) l.length := by
  induction l with
  | nil => intro i; rfl
  | cons x xs ih =>
    intro i
    rw [show (x :: xs).length = xs.length + 1 from rfl, List.range'_succ]
    simp only [cueIndicesAux, ih (i + 1)]

theorem serializeAux_strConcat (l : List Segment) :
    ∀ i total, serializeAux total i l =
      strConcat (((cueIndicesAux i l).zip l).map
        (fun p => renderCue p.1 p.2 ++ if p.1 = total - 1 then "" else "\n\n")) := by
  induction l with
  | nil => intro i total; rfl
  | cons x xs ih =>
    intro i total
    simp only [serializeAux, cueIndicesAux, List.zip_cons_cons, List.map_cons,
      strConcat, ih (i + 1), String.append_assoc]
    rfl

theorem pyPad_of_nonneg (w : Nat) (n : ℤ) (hn : 0 ≤ n) :
    pyPad w n = zfill w (Nat.repr n.toNat) := by
  unfold pyPad
  rw [if_neg (by omega : ¬ n < 0)]
  congr 2
  omega

theorem floorDiv_remainder_bounds (x d : ℚ) (hd : 0 < d) :
    0 ≤ x - d * (⌊x / d⌋ : ℚ) ∧ x - d * (⌊x / d⌋ : ℚ) < d := by
  constructor
  · have h1 : ((⌊x / d⌋ : ℤ) : ℚ) ≤ x / d := Int.floor_le _
    have h2 : d * ((⌊x / d⌋ : ℤ) : ℚ) ≤ d * (x / d) :=
      mul_le_mul_of_nonneg_left h1 (le_of_lt hd)
    have h3 : d * (x / d) = x := by field_simp
    linarith
  · have h1 : x / d < ((⌊x / d⌋ : ℤ) : ℚ) + 1 := Int.lt_floor_add_one _
    have h2 : d * (x / d) < d * (((⌊x / d⌋ : ℤ) : ℚ) + 1) :=
      mul_lt_mul_of_pos_left h1 hd
    have h3 : d * (x / d) = x := by field_simp
    nlinarith

theorem format_decompose (q : ℚ) (hq : 0 ≤ q) :
    ∃ (h m sf ms : ℤ) (fr : ℚ), 0 ≤ h ∧ 0 ≤ m ∧ m < 60 ∧ 0 ≤ sf ∧ sf < 60 ∧
      0 ≤ ms ∧ ms < 1000 ∧
      format_srt_timestamp q =
        pyPad 2 h ++ ":" ++ pyPad 2 m ++ ":" ++ pyPad 2 sf ++ "." ++ pyPad 3 ms ∧
      q = 3600 * h + 60 * m + sf + fr ∧ 0 ≤ fr ∧ fr < 1 ∧
      (ms : ℚ) ≤ fr * 1000 ∧ fr * 1000 < (ms : ℚ) + 1 := by
  set h : ℤ := ⌊q / 3600⌋ with hh
  set r : ℚ := q - 3600 * (h : ℚ) with hr
  set m : ℤ := ⌊r / 60⌋ with hm
  set s : ℚ := r - 60 * (m : ℚ) with hs
  set ms : ℤ := ⌊(s - (⌊s⌋ : ℚ)) * 1000⌋ with hms
  have hfmt : format_srt_timestamp q =
      pyPad 2 h ++ ":" ++ pyPad 2 m ++ ":" ++ pyPad 2 ⌊s⌋ ++ "." ++ pyPad 3 ms := rfl
  obtain ⟨hr0, hr1⟩ : 0 ≤ r ∧ r < 3600 := by
    rw [hr, hh]; exact floorDiv_remainder_bounds q 3600 (by norm_num)
  obtain ⟨hs0, hs1⟩ : 0 ≤ s ∧ s < 60 := by
    rw [hs, hm]; exact floorDiv_remainder_bounds r 60 (by norm_num)
  have h0 : 0 ≤ h := by
    rw [hh]; exact Int.floor_nonneg.mpr (div_nonneg hq (by norm_num))
  have hm0 : 0 ≤ m := by
    rw [hm]; exact Int.floor_nonneg.mpr (div_nonneg hr0 (by norm_num))
  have hm1 : m < 60 := by
    rw [hm]
    apply Int.floor_lt.mpr
    rw [div_lt_iff₀ (by norm_num : (0 : ℚ) < 60)]
    push_cast
    linarith
  have hsf0 : 0 ≤ ⌊s⌋ := Int.floor_nonneg.mpr hs0
  have hsf1 : ⌊s⌋ < 60 := Int.floor_lt.mpr (by exact_mod_cast hs1)
  have hfr0 : 0 ≤ s - (⌊s⌋ : ℚ) := by
    have := Int.floor_le s; linarith
  have hfr1 : s - (⌊s⌋ : ℚ) < 1 := by
    have := Int.lt_floor_add_one s; linarith
  have hms0 : 0 ≤ ms := by
    rw [hms]; exact Int.floor_nonneg.mpr (mul_nonneg hfr0 (by norm_num))
  have hms1 : ms < 1000 := by
    rw [hms]
    apply Int.floor_lt.mpr
    push_cast
    nlinarith
  have hms_le : (ms : ℚ) ≤ (s - (⌊s⌋ : ℚ)) * 1000 := by
    rw [hms]; exact Int.floor_le _
  have hms_lt : (s - (⌊s⌋ : ℚ)) * 1000 < (ms : ℚ) + 1 := by
    rw [hms]; exact Int.lt_floor_add_one _
  refine ⟨h, m, ⌊s⌋, ms, s - (⌊s⌋ : ℚ), h0, hm0, hm1, hsf0, hsf1, hms0, hms1,
    hfmt, ?_, hfr0, hfr1, hms_le, hms_lt⟩
  rw [hr] at hs
  linarith [hs]

theorem ts_zero : format_srt_timestamp 0 = "00:00:00.000" := by
  norm_num [format_srt_timestamp]
  decide

theorem ts_three_halves : format_srt_timestamp (3 / 2) = "00:00:01.500" := by
  norm_num [format_srt_timestamp]
  decide

theorem ts_three : format_srt_timestamp 3 = "00:00:03.000" := by
  norm_num [format_srt_timestamp]
  decide

theorem ts_four : format_srt_timestamp 4 = "00:00:04.000" := by
  norm_num [format_srt_timestamp]
  decide

theorem map_escape_self (l : List (List Char))
    (hl : ∀ w ∈ l, (w.map escapeChar).flatten = w) :
    l.map (fun w => (w.map escapeChar).flatten) = l := by
  induction l with
  | nil => rfl
  | cons w ws ih =>
    simp only [List.map_cons]
    rw [hl w (by simp), ih (fun x hx => hl x (by simp [hx]))]

/-! ## Claims -/

/-- Claim C1.  The claim says that when every GPU probe is inconclusive
and no error message was raised, the model is initialized with the CPU
device, overriding the CLI default `"cuda"`.  The code instead assigns
`"cpu"` to `args.device` while `WhisperModel` is built from
`args_config["device"]`, which keeps the CLI value: at the failing input
(all three probes inconclusive, default CLI arguments) the run completes
with device `"cuda"`, not `"cpu"`. -/
theorem gen_cpu_fallback_keeps_cli_device :
    gen_run [] [] ⟨none, none, (none, "")⟩
        ⟨"audio.mp3", "base", "en", "out.vtt", "cuda"⟩ "" [] =
      .ok ⟨"base", "cuda", vtt_header ++ serializeBody [],
        doneMessage "out.vtt"⟩ := rfl

/-- Claim C2.  The claim says only the explicit input `"n"` keeps the
originally selected model and every other input downgrades to `"base"`.
The code does the opposite of its own prompt (`Use base model for faster
results? [y/n]`): with the high-end list containing `"large-v3"`, a CPU
fallback, and the model `"large-v3"`, the answer `"n"` replaces the
model with `"base"`, while `"y"` and `""` keep `"large-v3"`. -/
theorem gen_downgrade_prompt_inverted :
    gen_run [] ["large-v3"] ⟨none, none, (none, "")⟩
        ⟨"audio.mp3", "large-v3", "en", "out.vtt", "cuda"⟩ "n" [] =
      .ok ⟨"base", "cuda", vtt_header ++ serializeBody [],
        doneMessage "out.vtt"⟩ ∧
    gen_run [] ["large-v3"] ⟨none, none, (none, "")⟩
        ⟨"audio.mp3", "large-v3", "en", "out.vtt", "cuda"⟩ "y" [] =
      .ok ⟨"large-v3", "cuda", vtt_header ++ serializeBody [],
        doneMessage "out.vtt"⟩ ∧
    gen_run [] ["large-v3"] ⟨none, none, (none, "")⟩
        ⟨"audio.mp3", "large-v3", "en", "out.vtt", "cuda"⟩ "" [] =
      .ok ⟨"large-v3", "cuda", vtt_header ++ serializeBody [],
        doneMessage "out.vtt"⟩ := ⟨rfl, rfl, rfl⟩

/-- Claim C3, counterexample.  The claim says applying the escaping
function a second time does not double-encode, in particular that
`escape(escape("A & B"))` is not `"A &amp;amp; B"`.  It is: the second
application re-scans the `&` of `&amp;`. -/
theorem escape_twice_double_encodes :
    char_parsing_correct_format (char_parsing_correct_format "A & B") =
      "A &amp;amp; B" := by decide

/-- Claim C3, amended.  Within a single application the function
processes each original character exactly once and never re-scans its own
output (character contributions are independent, and one application of
`escape` to `"A & B"` gives `"A &amp; B"`); but a second application
re-processes the first's output, so `escape(escape("A & B"))` is
`"A &amp;amp; B"`. -/
theorem escape_single_pass :
    (∀ u v : List Char, ((u ++ v).map escapeChar).flatten =
      (u.map escapeChar).flatten ++ (v.map escapeChar).flatten) ∧
    char_parsing_correct_format "A & B" = "A &amp; B" ∧
    char_parsing_correct_format (char_parsing_correct_format "A & B") =
      "A &amp;amp; B" :=
  ⟨fun u v => by simp, by decide, by decide⟩

/-- Claim C4, counterexample.  The claim says runs of spaces collapse to
one, in particular `escape("a   b") = "a b"`.  Python's `split(" ")`
keeps empty pieces between consecutive separators and `" ".join`
restores them, so the spaces are preserved: the result is `"a   b"`,
not `"a b"`. -/
theorem escape_spaces_not_collapsed :
    char_parsing_correct_format "a   b" = "a   b" ∧
    char_parsing_correct_format "a   b" ≠ "a b" := ⟨by decide, by decide⟩

/-- Claim C4, amended.  Splitting on single spaces produces an empty word
for each extra consecutive space and rejoining restores every space, so
the function is the identity on any text all of whose characters are
unescaped; in particular spacing (including runs of spaces) is preserved,
never collapsed: `escape("a   b") = "a   b"`. -/
theorem escape_id_of_unescaped (text : String)
    (h : ∀ c ∈ text.data, escapeChar c = [c]) :
    char_parsing_correct_format text = text := by
  simp only [char_parsing_correct_format]
  have hw : ∀ w ∈ splitChar ' ' text.data, (w.map escapeChar).flatten = w := by
    intro w hwmem
    have hcw : ∀ c ∈ w, escapeChar c = [c] := fun c hc =>
      h c (mem_of_mem_splitChar ' ' text.data w hwmem c hc)
    rw [List.map_congr_left hcw, flatten_map_singleton]
  rw [map_escape_self _ hw, joinWords_splitChar]

theorem escape_id_of_unescaped_witness :
    (∀ c ∈ ("a   b" : String).data, escapeChar c = [c]) ∧
    char_parsing_correct_format "a   b" = "a   b" :=
  ⟨by decide, escape_id_of_unescaped "a   b" (by decide)⟩

/-- Claim C5.  For every segment list of length at least 2 (written as
`front ++ [a, b]`), the serialized cues 1 to n-1 are separated pairwise
by a blank line, while the second-to-last cue is followed immediately by
the last one with no separator at all (the loop's block break is empty
exactly when the incremented index equals `len - 1`); the last cue is
followed by the trailing block break.  On the three example segments,
cues 1 and 2 are separated by a blank line and cues 2 and 3 by
nothing. -/
theorem serialize_last_pair_no_blank_line (front : List Segment)
    (a b : Segment) :
    serializeBody (front ++ [a, b]) =
      sepByBlankLine (cueBlocks (front ++ [a])) ++
        renderCue (front.length + 2) b ++ "\n\n" ∧
    serializeBody [⟨0, 3 / 2, "Hello"⟩, ⟨3 / 2, 3, "World"⟩, ⟨3, 4, "End"⟩] =
      "1\n00:00:00.000 --> 00:00:01.500\nHello\n\n2\n00:00:01.500 --> 00:00:03.000\nWorld3\n00:00:03.000 --> 00:00:04.000\nEnd\n\n" := by
  constructor
  · have hlen : (front ++ [a, b]).length = front.length + 2 := by simp
    rw [serializeBody, cueBlocks, hlen]
    exact serializeAux_split a b front 0 (front.length + 2) (by omega)
  · have e1 : renderCue 1 ⟨0, 3 / 2, "Hello"⟩ =
        "1\n00:00:00.000 --> 00:00:01.500\nHello" := by
      show Nat.repr 1 ++ "\n" ++ format_srt_timestamp 0 ++ " --> " ++
        format_srt_timestamp (3 / 2) ++ "\n" ++
        strip_one_leading_space (char_parsing_correct_format "Hello") = _
      rw [ts_zero, ts_three_halves]
      decide
    have e2 : renderCue 2 ⟨3 / 2, 3, "World"⟩ =
        "2\n00:00:01.500 --> 00:00:03.000\nWorld" := by
      show Nat.repr 2 ++ "\n" ++ format_srt_timestamp (3 / 2) ++ " --> " ++
        format_srt_timestamp 3 ++ "\n" ++
        strip_one_leading_space (char_parsing_correct_format "World") = _
      rw [ts_three_halves, ts_three]
      decide
    have e3 : renderCue 3 ⟨3, 4, "End"⟩ =
        "3\n00:00:03.000 --> 00:00:04.000\nEnd" := by
      show Nat.repr 3 ++ "\n" ++ format_srt_timestamp 3 ++ " --> " ++
        format_srt_timestamp 4 ++ "\n" ++
        strip_one_leading_space (char_parsing_correct_format "End") = _
      rw [ts_three, ts_four]
      decide
    norm_num only [serializeBody, serializeAux, List.length_cons,
      List.length_nil]
    rw [e1, e2, e3]
    decide

/-- Claim C6.  For every nonnegative `seconds`, the formatted timestamp
has the shape `HH:MM:SS.mmm`: hours, minutes and whole seconds rendered
zero-padded to at least two digits, minutes and seconds below 60 (hence
exactly two digits), milliseconds below 1000 (hence exactly three digits
after padding), where `H:M:S` is the floor decomposition of `seconds`
and the milliseconds are the truncation (never a rounding up) of the
fractional second scaled by 1000.  Hours are unbounded, not wrapped at
24: `format_srt_timestamp 90000 = "25:00:00.000"`, and truncation shows
at `format_srt_timestamp (36619999/10000) = "01:01:01.999"`. -/
theorem format_srt_timestamp_shape (q : ℚ) (hq : 0 ≤ q) :
    (∃ H M S MS : ℕ, M < 60 ∧ S < 60 ∧ MS < 1000 ∧
      format_srt_timestamp q =
        zfill 2 (Nat.repr H) ++ ":" ++ zfill 2 (Nat.repr M) ++ ":" ++
          zfill 2 (Nat.repr S) ++ "." ++ zfill 3 (Nat.repr MS) ∧
      ((H * 3600 + M * 60 + S : ℕ) : ℚ) ≤ q ∧
      q < ((H * 3600 + M * 60 + S : ℕ) : ℚ) + 1 ∧
      (MS : ℚ) ≤ (q - ((H * 3600 + M * 60 + S : ℕ) : ℚ)) * 1000 ∧
      (q - ((H * 3600 + M * 60 + S : ℕ) : ℚ)) * 1000 < (MS : ℚ) + 1) ∧
    format_srt_timestamp (36619999 / 10000) = "01:01:01.999" ∧
    format_srt_timestamp 90000 = "25:00:00.000" := by
  refine ⟨?_, by norm_num [format_srt_timestamp]; decide,
    by norm_num [format_srt_timestamp]; decide⟩
  obtain ⟨h, m, sf, ms, fr, h0, hm0, hm1, hsf0, hsf1, hms0, hms1, hfmt, hdec,
    hfr0, hfr1, hle, hlt⟩ := format_decompose q hq
  have hhq : ((h.toNat : ℕ) : ℚ) = (h : ℚ) := by
    exact_mod_cast congrArg (fun z : ℤ => (z : ℚ)) (Int.toNat_of_nonneg h0)
  have hmq : ((m.toNat : ℕ) : ℚ) = (m : ℚ) := by
    exact_mod_cast congrArg (fun z : ℤ => (z : ℚ)) (Int.toNat_of_nonneg hm0)
  have hsfq : ((sf.toNat : ℕ) : ℚ) = (sf : ℚ) := by
    exact_mod_cast congrArg (fun z : ℤ => (z : ℚ)) (Int.toNat_of_nonneg hsf0)
  have hmscast : ((ms.toNat : ℕ) : ℚ) = (ms : ℚ) := by
    exact_mod_cast congrArg (fun z : ℤ => (z : ℚ)) (Int.toNat_of_nonneg hms0)
  have hcast : ((h.toNat * 3600 + m.toNat * 60 + sf.toNat : ℕ) : ℚ) =
      3600 * (h : ℚ) + 60 * (m : ℚ) + (sf : ℚ) := by
    push_cast [hhq, hmq, hsfq]
    ring
  refine ⟨h.toNat, m.toNat, sf.toNat, ms.toNat, by omega, by omega, by omega,
    ?_, ?_, ?_, ?_, ?_⟩
  · rw [hfmt, pyPad_of_nonneg 2 h h0, pyPad_of_nonneg 2 m hm0,
      pyPad_of_nonneg 2 sf hsf0, pyPad_of_nonneg 3 ms hms0]
  · rw [hcast]; linarith
  · rw [hcast]; linarith
  · rw [hmscast, hcast]
    have hq_sub : q - (3600 * (h : ℚ) + 60 * (m : ℚ) + (sf : ℚ)) = fr := by
      linarith
    rw [hq_sub]; exact hle
  · rw [hmscast, hcast]
    have hq_sub : q - (3600 * (h : ℚ) + 60 * (m : ℚ) + (sf : ℚ)) = fr := by
      linarith
    rw [hq_sub]; exact hlt

theorem format_srt_timestamp_shape_witness :
    0 ≤ (0 : ℚ) ∧
    ((∃ H M S MS : ℕ, M < 60 ∧ S < 60 ∧ MS < 1000 ∧
      format_srt_timestamp 0 =
        zfill 2 (Nat.repr H) ++ ":" ++ zfill 2 (Nat.repr M) ++ ":" ++
          zfill 2 (Nat.repr S) ++ "." ++ zfill 3 (Nat.repr MS) ∧
      ((H * 3600 + M * 60 + S : ℕ) : ℚ) ≤ 0 ∧
      (0 : ℚ) < ((H * 3600 + M * 60 + S : ℕ) : ℚ) + 1 ∧
      (MS : ℚ) ≤ ((0 : ℚ) - ((H * 3600 + M * 60 + S : ℕ) : ℚ)) * 1000 ∧
      ((0 : ℚ) - ((H * 3600 + M * 60 + S : ℕ) : ℚ)) * 1000 < (MS : ℚ) + 1) ∧
    format_srt_timestamp (36619999 / 10000) = "01:01:01.999" ∧
    format_srt_timestamp 90000 = "25:00:00.000") :=
  ⟨le_refl 0, format_srt_timestamp_shape 0 (le_refl 0)⟩

/-- Claim C7, counterexample.  The claim says the header block is written
only for WebVTT output and omitted entirely for SRT output.  The code
writes it unconditionally: on a run whose output file is `out.srt`, the
written file still begins with the `WEBVTT` marker (the code has no
branch on the output format at all). -/
theorem header_written_for_srt_output :
    gen_run [] [] ⟨some true, none, (none, "")⟩
        ⟨"audio.mp3", "base", "en", "out.srt", "cuda"⟩ "" [] =
      .ok ⟨"base", "cuda", vtt_header ++ serializeBody [],
        doneMessage "out.srt"⟩ ∧
    (vtt_header ++ serializeBody []).data.take 6 = "WEBVTT".data :=
  ⟨rfl, by decide⟩

/-- Claim C7, amended.  The fixed header block is written exactly once,
before any cue, on every completed run, regardless of the output file
name or format: the written file is always the header followed by the
serialized cues. -/
theorem header_always_written (en he : List String) (p : ProbeResults)
    (args : Args) (choice : String) (segs : List Segment) (r : GenResult)
    (h : gen_run en he p args choice segs = .ok r) :
    r.fileContent = vtt_header ++ serializeBody segs := by
  simp only [gen_run] at h
  by_cases h1 : (probe_cascade p).1 = some true ∧ (probe_cascade p).2 = ""
  · rw [if_pos h1] at h
    injection h with h2
    rw [← h2]
  · rw [if_neg h1] at h
    by_cases h2 : (probe_cascade p).2 ≠ ""
    · rw [if_pos h2] at h
      exact absurd h (by simp)
    · rw [if_neg h2] at h
      injection h with h3
      rw [← h3]

theorem header_always_written_witness :
    (GenResult.mk "base" "cuda" (vtt_header ++ serializeBody [])
        (doneMessage "out.srt")).fileContent =
      vtt_header ++ serializeBody [] :=
  header_always_written [] [] ⟨some true, none, (none, "")⟩
    ⟨"audio.mp3", "base", "en", "out.srt", "cuda"⟩ "" [] _ (by rfl)

/-- Claim C8.  Whenever the probe cascade ends with a non-empty error
message, the run prints the error line and exits with status 1 (the
`Except.error` result carries no model initialization, no device choice
and no file content: the run aborts before any of them). -/
theorem fatal_probe_error_aborts (en he : List String) (p : ProbeResults)
    (args : Args) (choice : String) (segs : List Segment)
    (h : (probe_cascade p).2 ≠ "") :
    gen_run en he p args choice segs =
      .error ⟨"\x1b[1;31mERROR:\x1b[0m " ++ (probe_cascade p).2, 1⟩ := by
  have h1 : ¬ ((probe_cascade p).1 = some true ∧ (probe_cascade p).2 = "") :=
    fun hc => h hc.2
  simp only [gen_run]
  rw [if_neg h1, if_pos h]

theorem fatal_probe_error_aborts_witness :
    (probe_cascade ⟨none, none,
      (none, "cudart found but the driver version is incompatible")⟩).2 ≠ "" ∧
    gen_run [] [] ⟨none, none,
        (none, "cudart found but the driver version is incompatible")⟩
        ⟨"audio.mp3", "base", "en", "out.vtt", "cuda"⟩ "" [] =
      .error ⟨"\x1b[1;31mERROR:\x1b[0m " ++ (probe_cascade ⟨none, none,
        (none, "cudart found but the driver version is incompatible")⟩).2,
        1⟩ :=
  ⟨by decide, fatal_probe_error_aborts [] [] _ _ "" [] (by decide)⟩

/-- Claim C9.  The cue indices written to the output are exactly
`1, 2, ..., n` in segment order (`List.range' 1 n`): strictly increasing
positive integers starting at 1 with no gaps, one per segment; and the
serialized body is precisely the cue blocks rendered with these indices
in order, each followed by its block break. -/
theorem cue_indices_one_to_n (segs : List Segment) :
    cueIndices segs = List.range' 1 segs.length ∧
    serializeBody segs = strConcat (((cueIndices segs).zip segs).map
      (fun p => renderCue p.1 p.2 ++
        if p.1 = segs.length - 1 then "" else "\n\n")) := by
  constructor
  · rw [cueIndices, cueIndicesAux_eq]
  · rw [serializeBody, serializeAux_strConcat, cueIndices]

/-- Claim C10.  When the segment list is empty, the run still completes:
the output file contains exactly the fixed header block and no cue
lines, and the success message naming the output path is printed. -/
theorem empty_segments_header_only (en he : List String) (p : ProbeResults)
    (args : Args) (choice : String) (h : (probe_cascade p).2 = "") :
    ∃ r : GenResult, gen_run en he p args choice [] = .ok r ∧
      r.fileContent = vtt_header ∧
      r.printed = doneMessage args.output_file := by
  have hbody : vtt_header ++ serializeBody [] = vtt_header := by
    rw [show serializeBody [] = "" from rfl, String.append_empty]
  simp only [gen_run]
  by_cases h1 : (probe_cascade p).1 = some true ∧ (probe_cascade p).2 = ""
  · rw [if_pos h1]
    exact ⟨_, rfl, hbody, rfl⟩
  · rw [if_neg h1, if_neg (by simp [h])]
    exact ⟨_, rfl, hbody, rfl⟩

theorem empty_segments_header_only_witness :
    (probe_cascade ⟨none, none, (none, "")⟩).2 = "" ∧
    (∃ r : GenResult, gen_run [] [] ⟨none, none, (none, "")⟩
        ⟨"audio.mp3", "base", "en", "out.vtt", "cuda"⟩ "" [] = .ok r ∧
      r.fileContent = vtt_header ∧
      r.printed = doneMessage "out.vtt") :=
  ⟨by decide, empty_segments_header_only [] [] ⟨none, none, (none, "")⟩
    ⟨"audio.mp3", "base", "en", "out.vtt", "cuda"⟩ "" (by decide)⟩
